import Mathlib

/-!
Verification of the pricing and listing-eligibility engine of the
refurbished-phone selling application.

The definitions below are a shallow embedding of the Python source:
monetary amounts and fee rates are modelled as exact rationals (`ℚ`),
Python `dict` lookup as association-list lookup, and fallible Python code
(operations that raise `ValueError`, `ZeroDivisionError` or `KeyError`)
as `Option`- or result-valued functions.
-/

namespace Refurb

/-- Association-list lookup; models Python `dict` access (`d.get(k)` /
`k in d`). -/
def slookup {α : Type} (k : String) : List (String × α) → Option α
  | [] => none
  | (k', v) :: rest => if k = k' then some v else slookup k rest

/-- Model of Python `str.strip()` over the character list. -/
def pyStrip (s : String) : String :=
  String.mk (((s.data.dropWhile Char.isWhitespace).reverse.dropWhile
    Char.isWhitespace).reverse)

/-- Model of Python `str.upper()` over the character list. -/
def pyUpper (s : String) : String := String.mk (s.data.map Char.toUpper)

/-- Model of Python `str.lower()` over the character list. -/
def pyLower (s : String) : String := String.mk (s.data.map Char.toLower)

/-- Round a rational to the nearest integer, ties to the even integer.
This models Python's built-in `round`, which uses banker's rounding. -/
def rheInt (x : ℚ) : ℤ :=
  if x - ⌊x⌋ < 1 / 2 then ⌊x⌋
  else if 1 / 2 < x - ⌊x⌋ then ⌊x⌋ + 1
  else if ⌊x⌋ % 2 = 0 then ⌊x⌋ else ⌊x⌋ + 1

/-- Model of Python's `round(x, 2)`: round to 2 decimal places, ties to
even. -/
def round2 (x : ℚ) : ℚ := (rheInt (100 * x) : ℚ) / 100

/-- The `FeeRule` dataclass from `app/services/pricing.py`: `type`, `value`
(the percent rate), `fixed` (default `0.0`). The dataclass performs no
validation of its fields. -/
structure FeeRule where
  type : String
  value : ℚ
  fixed : ℚ
deriving DecidableEq

/-- Constructing a `FeeRule`. The source dataclass has no `__post_init__`
or any other validation, so construction always succeeds; the `Option`
result records that no `InvalidFeeRule`-style failure path exists. -/
def mk_fee_rule (t : String) (v fx : ℚ) : Option FeeRule := some ⟨t, v, fx⟩

/-- Function `apply_fee` from `app/services/pricing.py`. `none` models the raised
exceptions: `ValueError` for an unsupported rule type, and
`ZeroDivisionError` when `1 - value = 0`. -/
def apply_fee (price : ℚ) (rule : FeeRule) : Option ℚ :=
  if rule.type = "percent" then
    if rule.value = 1 then none
    else some (round2 (price / (1 - rule.value)))
  else if rule.type = "percent_plus_fixed" then
    if rule.value = 1 then none
    else some (round2 ((price + rule.fixed) / (1 - rule.value)))
  else none

/-- The inverse fee conversion (list price to seller revenue) exactly as
inlined in `is_profitable` in `app/services/pricing.py`: the `percent`
branch, and the `else` branch used for every other rule type. -/
def fee_inverse (rule : FeeRule) (final_price : ℚ) : ℚ :=
  if rule.type = "percent" then final_price * (1 - rule.value)
  else final_price * (1 - rule.value) - rule.fixed

/-- A per-platform fee configuration dict entry
(`{"type": ..., "value": ..., "fixed": ...}`); `fixed` is optional and
read with `cfg.get("fixed", 0.0)`. -/
structure FeeCfg where
  type : String
  value : ℚ
  fixed : Option ℚ
deriving DecidableEq

/-- Building a `FeeRule` from a config dict entry, as done in
`recommend_prices` and `is_profitable`. -/
def cfgRule (c : FeeCfg) : FeeRule := ⟨c.type, c.value, c.fixed.getD 0⟩

/-- Function `is_profitable` from `app/services/pricing.py`. -/
def is_profitable (final_price base_price : ℚ) (fee_cfg : FeeCfg) : Bool :=
  let rule := cfgRule fee_cfg
  let seller_rev :=
    if rule.type = "percent" then final_price * (1 - rule.value)
    else final_price * (1 - rule.value) - rule.fixed
  decide (seller_rev ≥ base_price)

/-- Sequential `Option`-valued map over a list; models a Python loop whose
body may raise, aborting the whole pass. -/
def optMap {α β : Type} (f : α → Option β) : List α → Option (List β)
  | [] => some []
  | a :: l =>
    match f a, optMap f l with
    | some b, some bs => some (b :: bs)
    | _, _ => none

/-- Function `recommend_prices` from `app/services/pricing.py`: for each platform
in the fee config, use a positive manual override verbatim (rounded to 2
decimals), otherwise price via `apply_fee` at the target revenue. -/
def recommend_prices (base_price : ℚ) (fee_config : List (String × FeeCfg))
    (min_margin : ℚ) (manual_overrides : List (String × ℚ)) :
    Option (List (String × ℚ)) :=
  let target_revenue := base_price * (1 + min_margin)
  optMap (fun pc =>
    match slookup pc.1 manual_overrides with
    | some v =>
        if v > 0 then some (pc.1, round2 v)
        else (apply_fee target_revenue (cfgRule pc.2)).map (fun q => (pc.1, q))
    | none => (apply_fee target_revenue (cfgRule pc.2)).map (fun q => (pc.1, q)))
    fee_config

theorem apply_fee_percent (price v fx : ℚ) (h : v ≠ 1) :
    apply_fee price ⟨"percent", v, fx⟩ = some (round2 (price / (1 - v))) := by
  simp [apply_fee, h]

theorem apply_fee_ppf (price v fx : ℚ) (h : v ≠ 1) :
    apply_fee price ⟨"percent_plus_fixed", v, fx⟩ =
      some (round2 ((price + fx) / (1 - v))) := by
  simp [apply_fee, h]

theorem rheInt_close (x : ℚ) : |(rheInt x : ℚ) - x| ≤ 1 / 2 := by
  have hle : (⌊x⌋ : ℚ) ≤ x := Int.floor_le x
  have hlt : x < ⌊x⌋ + 1 := Int.lt_floor_add_one x
  unfold rheInt
  split_ifs with h1 h2 h3 <;> rw [abs_le] <;> push_cast <;> constructor <;> linarith

theorem round2_close (x : ℚ) : |round2 x - x| ≤ 1 / 200 := by
  have h : round2 x - x = ((rheInt (100 * x) : ℚ) - 100 * x) / 100 := by
    unfold round2; ring
  have hb := rheInt_close (100 * x)
  have h100 : |(100 : ℚ)| = 100 := by norm_num
  rw [h, abs_div, h100, div_le_iff₀ (by norm_num : (0:ℚ) < 100)]
  linarith

/-- Table `COND_MAP` from `app/services/platforms.py`: per-platform condition
label table. -/
def COND_MAP : List (String × List (String × String)) :=
  [("X", [("New", "New"), ("Good", "Good"), ("Scrap", "Scrap")]),
   ("Y", [("New", "3 stars (Excellent)"), ("Good", "2 stars (Good)"),
          ("Scrap", "1 star (Usable)")]),
   ("Z", [("New", "New"), ("Good", "Good"), ("Scrap", "As New")])]

/-- The failure message built by `map_condition`; the source wraps the
condition in single quotes, rendered here without the quote characters. -/
def unsupported_msg (platform condition : String) : String :=
  "Unsupported condition " ++ condition ++ " for " ++ platform

/-- Function `map_condition` from `app/services/platforms.py`: `(ok, label-or-msg)`.
The source's `if not mapping or condition not in mapping` covers a missing
platform, an empty per-platform table, and a missing grade. -/
def map_condition (platform condition : String) : Bool × String :=
  match slookup platform COND_MAP with
  | none => (false, unsupported_msg platform condition)
  | some mapping =>
    if mapping.isEmpty then (false, unsupported_msg platform condition)
    else
      match slookup condition mapping with
      | none => (false, unsupported_msg platform condition)
      | some label => (true, label)

/-- Function `should_block_for_stock` from `app/services/platforms.py`:
`(blocked, reason)`. -/
def should_block_for_stock (stock_qty : ℤ) (discontinued : Bool) :
    Bool × String :=
  if discontinued then (true, "Product discontinued")
  else if stock_qty ≤ 0 then (true, "Out of stock")
  else (false, "")

/-- Snapshot of a `Phone` row (`app/models.py`) as read by the routes:
platform prices are nullable columns, modelled as `Option`. -/
structure Phone where
  condition : String
  base_price : ℚ
  stock_qty : ℤ
  tags : Option String
  price_x : Option ℚ
  price_y : Option ℚ
  price_z : Option ℚ
  discontinued : Bool
deriving DecidableEq

/-- Models `getattr(phone, f"price_" + platform.lower())` in `list_phone`;
only reached for platforms X, Y, Z. -/
def priceFor (p : Phone) (platform : String) : Option ℚ :=
  if platform = "X" then p.price_x
  else if platform = "Y" then p.price_y
  else if platform = "Z" then p.price_z
  else none

/-- Outcome of one `list_phone` request (`app/routes/platforms.py`):
`badPlatform` is the early 400 for an unknown platform, `failed` carries
the recorded failure reason, `keyError` models a `KeyError` escaping from
`fee_cfg`. -/
inductive ListResult
  | badPlatform
  | failed (reason : String)
  | keyError
  | success (condition_label : String) (price : ℚ)
deriving DecidableEq

/-- Function `list_phone` from `app/routes/platforms.py`: gate check, condition
mapping, price presence (`if not final_price`: `None` or `0` fail), then
profitability, terminating at the first failure. -/
def list_phone (fees : List (String × FeeCfg)) (platform : String)
    (phone : Phone) : ListResult :=
  let pf := pyUpper platform
  if pf = "X" ∨ pf = "Y" ∨ pf = "Z" then
    let gate := should_block_for_stock phone.stock_qty phone.discontinued
    if gate.1 then .failed gate.2
    else
      let cond := map_condition pf phone.condition
      if cond.1 then
        match priceFor phone pf with
        | none => .failed "Missing platform price"
        | some final_price =>
          if final_price = 0 then .failed "Missing platform price"
          else
            match slookup pf fees with
            | none => .keyError
            | some cfg =>
              if is_profitable final_price phone.base_price cfg then
                .success cond.2 final_price
              else .failed "Unprofitable after platform fees"
      else .failed cond.2
  else .badPlatform

/-- Constant `PLATFORM_FEES` from `config.py`. -/
def PLATFORM_FEES : List (String × FeeCfg) :=
  [("X", ⟨"percent", 1 / 10, none⟩),
   ("Y", ⟨"percent_plus_fixed", 8 / 100, some 2⟩),
   ("Z", ⟨"percent", 12 / 100, none⟩)]

/-- Constant `PRICE_MIN_MARGIN` from `config.py`. -/
def PRICE_MIN_MARGIN : ℚ := 7 / 100

/-- Function `auto_update_prices` from `app/routes/platforms.py`: for every phone,
recompute `recommend_prices` with an empty override dict and store the
results in `price_x`, `price_y`, `price_z`. `none` models a raised
exception (`ValueError`/`ZeroDivisionError`/`KeyError`) aborting the
request. -/
def auto_update_prices (cfg : List (String × FeeCfg)) (min_margin : ℚ)
    (phones : List Phone) : Option (List Phone) :=
  optMap (fun p =>
    match recommend_prices p.base_price cfg min_margin [] with
    | none => none
    | some prices =>
      match slookup "X" prices, slookup "Y" prices, slookup "Z" prices with
      | some px, some py, some pz =>
        some { p with price_x := some px, price_y := some py, price_z := some pz }
      | _, _, _ => none) phones

/-- Digit string to number; `some 0` on the empty list, so callers check
non-emptiness separately. -/
def digitsToNat (cs : List Char) : Option ℕ :=
  cs.foldl
    (fun acc c =>
      acc.bind (fun n => if c.isDigit then some (10 * n + (c.toNat - 48)) else none))
    (some 0)

/-- Tail of a digit group after its first digit: digits with single
underscores allowed only between two digits (PEP 515). -/
def digitGroupTail : List Char → Bool
  | [] => true
  | '_' :: [] => false
  | '_' :: d :: rest => d.isDigit && digitGroupTail rest
  | d :: rest => d.isDigit && digitGroupTail rest

/-- A non-empty digit group, possibly with PEP 515 underscores: starts
and ends with a digit, underscores only between digits. -/
def isDigitGroup : List Char → Bool
  | [] => false
  | c :: rest => c.isDigit && digitGroupTail rest

/-- Value of a digit group (underscores removed); `none` when the
characters do not form a valid digit group. -/
def digitGroupVal (cs : List Char) : Option ℕ :=
  if isDigitGroup cs then digitsToNat (cs.filter (fun c => c != '_')) else none

/-- Split a float literal body at the exponent marker `e`/`E`, when
present. -/
def splitExp (cs : List Char) : List Char × Option (List Char) :=
  match cs.span (fun c => !(c = 'e' || c = 'E')) with
  | (m, []) => (m, none)
  | (m, _ :: rest) => (m, some rest)

/-- Split a mantissa at the decimal point, when present. -/
def splitDot (cs : List Char) : List Char × Option (List Char) :=
  match cs.span (fun c => c != '.') with
  | (m, []) => (m, none)
  | (m, _ :: rest) => (m, some rest)

/-- A finite Python float literal after the optional sign:
`intpart [. fracpart] [(e|E) [sign] digits]`, each digit part a PEP 515
digit group, with at least one digit in the mantissa. Returns the exact
rational value. -/
def pyFloatFinite (cs : List Char) : Option ℚ :=
  match splitExp cs with
  | (mant, exOpt) =>
    let mval : Option ℚ :=
      match splitDot mant with
      | (ipart, none) => (digitGroupVal ipart).map (fun n => (n : ℚ))
      | (ipart, some fpart) =>
        if ipart.isEmpty && fpart.isEmpty then none
        else if (ipart.isEmpty || isDigitGroup ipart)
            && (fpart.isEmpty || isDigitGroup fpart) then
          match digitsToNat (ipart.filter (fun c => c != '_')),
              digitsToNat (fpart.filter (fun c => c != '_')) with
          | some ni, some nf =>
            some ((ni : ℚ)
              + (nf : ℚ) / (10 : ℚ) ^ (fpart.filter (fun c => c != '_')).length)
          | _, _ => none
        else none
    match mval, exOpt with
    | none, _ => none
    | some m, none => some m
    | some m, some ex =>
      let se : Bool × List Char :=
        match ex with
        | '+' :: rest => (false, rest)
        | '-' :: rest => (true, rest)
        | _ => (false, ex)
      match digitGroupVal se.2 with
      | none => none
      | some e => some (if se.1 then m / 10 ^ e else m * 10 ^ e)

/-- The value of a successful Python `float(str)`: a finite value, an
infinity, or NaN. -/
inductive PyFloat
  | finite (q : ℚ)
  | inf
  | neginf
  | nan
deriving DecidableEq

/-- Magnitude of a Python float literal after the optional sign:
`inf`/`infinity`/`nan` case-insensitively, or a finite literal. -/
def pyFloatMag (cs : List Char) (neg : Bool) : Option PyFloat :=
  let low := cs.map Char.toLower
  if low = "inf".data || low = "infinity".data then
    some (if neg then .neginf else .inf)
  else if low = "nan".data then some .nan
  else (pyFloatFinite cs).map (fun q => .finite (if neg then -q else q))

/-- Model of Python's `float(str)`: optional surrounding whitespace,
optional sign, then `inf`/`infinity`/`nan` (case-insensitive) or a
decimal literal with optional fraction, optional exponent and PEP 515
underscores; the finite values exact as rationals. Non-ASCII numerals
and whitespace are outside the inputs considered here. -/
def pyFloat (s : String) : Option PyFloat :=
  match (pyStrip s).toList with
  | [] => none
  | '+' :: rest => pyFloatMag rest false
  | '-' :: rest => pyFloatMag rest true
  | cs => pyFloatMag cs false

/-- Model of Python's `int(str)` on decimal literals: optional
surrounding whitespace, optional sign, digits with PEP 515 underscores.
Non-ASCII numerals and whitespace are outside the inputs considered
here. -/
def pyInt (s : String) : Option ℤ :=
  match (pyStrip s).toList with
  | [] => none
  | '+' :: rest => (digitGroupVal rest).map (fun n => (n : ℤ))
  | '-' :: rest => (digitGroupVal rest).map (fun n => -(n : ℤ))
  | cs => (digitGroupVal cs).map (fun n => (n : ℤ))

/-- Constant `REQUIRED_FIELDS` from `app/utils/csv_importer.py`. -/
def REQUIRED_FIELDS : List String :=
  ["brand", "model", "condition", "base_price", "stock_qty"]

/-- The header check in `parse_phone_rows`:
`REQUIRED_FIELDS.issubset(set(k.strip() for k in row.keys()))`. -/
def headerOk (row : List (String × String)) : Bool :=
  REQUIRED_FIELDS.all (fun k => (row.map (fun kv => pyStrip kv.1)).contains k)

/-- Models `(row.get(k) or "").strip()`. -/
def strField (row : List (String × String)) (k : String) : String :=
  pyStrip ((slookup k row).getD "")

/-- Models `(row.get(k) or "").strip() or None`. -/
def optField (row : List (String × String)) (k : String) : Option String :=
  if strField row k = "" then none else some (strField row k)

/-- Result of a fallible Python expression: a value, or the message of the
raised exception. -/
inductive PyResult (α : Type)
  | ok (val : α)
  | error (msg : String)
deriving DecidableEq

/-- Models `float(row.get(k) or 0)`: a missing or empty (falsy) value is coerced
to `0`; a non-empty unparsable value raises `ValueError`, modelled as
`PyResult.error` with the CPython message. -/
def floatField (v : Option String) : PyResult PyFloat :=
  match v with
  | none => .ok (.finite 0)
  | some s =>
    if s = "" then .ok (.finite 0)
    else
      match pyFloat s with
      | some q => .ok q
      | none => .error ("could not convert string to float: " ++ s)

/-- Models `int(row.get(k) or 0)`, analogous to `floatField`. -/
def intField (v : Option String) : PyResult ℤ :=
  match v with
  | none => .ok 0
  | some s =>
    if s = "" then .ok 0
    else
      match pyInt s with
      | some z => .ok z
      | none => .error ("invalid literal for int with base 10: " ++ s)

/-- Models `str(row.get("discontinued") or "").lower() in {"1", "true", "yes"}`. -/
def truthyDisc (v : Option String) : Bool :=
  let s := pyLower (v.getD "")
  s = "1" || s = "true" || s = "yes"

/-- The normalized dict yielded per row by `parse_phone_rows`. -/
structure ParsedRow where
  brand : String
  model : String
  storage : Option String
  color : Option String
  condition : String
  base_price : PyFloat
  stock_qty : ℤ
  tags : Option String
  discontinued : Bool
deriving DecidableEq

/-- One iteration of `parse_phone_rows` in `app/utils/csv_importer.py`
(row index `i`, the row as an association list of header name to cell).
Failure order follows the source: header check, `float(base_price)`,
`int(stock_qty)`, then the brand/model emptiness check; every failure is
a raised `ValueError`, modelled as `PyResult.error`. -/
def parse_phone_row (i : ℕ) (row : List (String × String)) :
    PyResult ParsedRow :=
  if headerOk row then
    match floatField (slookup "base_price" row) with
    | .error e => .error e
    | .ok base_price =>
      match intField (slookup "stock_qty" row) with
      | .error e => .error e
      | .ok stock_qty =>
        if strField row "brand" = "" ∨ strField row "model" = "" then
          .error ("Row " ++ toString i ++ ": brand/model cannot be empty")
        else
          .ok { brand := strField row "brand", model := strField row "model",
                storage := optField row "storage",
                color := optField row "color",
                condition :=
                  (if strField row "condition" = "" then "Good"
                   else strField row "condition"),
                base_price := base_price, stock_qty := stock_qty,
                tags := optField row "tags",
                discontinued := truthyDisc (slookup "discontinued" row) }
  else .error "CSV header missing required fields"

/-- Modelled from the spec: 2-decimal rounding with standard half-up
rounding, the rounding mode named in the Fee Model contract of the spec. -/
def round2_half_up (x : ℚ) : ℚ := ((round (100 * x) : ℤ) : ℚ) / 100

/-- Modelled from the spec: the forward fee conversion of the Fee Model
contract, with the half-up rounding the spec prescribes. Compared against
`apply_fee`, the source implementation. -/
def spec_forward_halfup (rule : FeeRule) (net : ℚ) : ℚ :=
  if rule.type = "percent" then round2_half_up (net / (1 - rule.value))
  else round2_half_up ((net + rule.fixed) / (1 - rule.value))

/-- C1 counterexample: with only `rate < 1` required, a negative rate
defeats the 0.01 tolerance — the rounding error of the forward
conversion is amplified by `1 - rate > 1` on inversion. At rate `-3` and
net `0.016` the forward price rounds to `0.00`, and the inverse returns
`0`, off by `0.016 > 0.01`. -/
theorem claim1_counterexample :
    ((-3 : ℚ) < 1 ∧ (0 : ℚ) ≤ 0 ∧ (0 : ℚ) < 2 / 125) ∧
    apply_fee (2 / 125) ⟨"percent", -3, 0⟩ = some 0 ∧
    ¬ |fee_inverse ⟨"percent", -3, 0⟩ 0 - 2 / 125| ≤ 1 / 100 := by
  refine ⟨⟨by norm_num, le_refl 0, by norm_num⟩, ?_, ?_⟩
  · rw [apply_fee_percent _ _ _ (by norm_num)]
    norm_num [round2, rheInt]
  · simp [fee_inverse]
    rw [abs_of_nonneg (by norm_num : (0:ℚ) ≤ 2 / 125)]
    norm_num

/-- C1 amended: for every fee rule valid per the spec's data model (rate
in `[0, 1)` — the lower bound is required, not just `rate < 1` — with
non-negative fixed part, kind `percent` or `percent_plus_fixed`) and
every net amount `net > 0`, the forward conversion `apply_fee` succeeds
and the inverse conversion (as inlined in `is_profitable`) returns the
original net within 0.01. -/
theorem claim1_round_trip (t : String) (v fx net : ℚ)
    (ht : t = "percent" ∨ t = "percent_plus_fixed")
    (hv0 : 0 ≤ v) (hv1 : v < 1) (hfx : 0 ≤ fx) (hnet : 0 < net) :
    ∃ p, apply_fee net ⟨t, v, fx⟩ = some p ∧
      |fee_inverse ⟨t, v, fx⟩ p - net| ≤ 1 / 100 := by
  have hne : v ≠ 1 := ne_of_lt hv1
  have h1v : (0:ℚ) < 1 - v := by linarith
  have h1vne : (1:ℚ) - v ≠ 0 := ne_of_gt h1v
  rcases ht with ht | ht <;> subst ht
  · refine ⟨round2 (net / (1 - v)), apply_fee_percent net v fx hne, ?_⟩
    have hinv : fee_inverse ⟨"percent", v, fx⟩ (round2 (net / (1 - v)))
        = round2 (net / (1 - v)) * (1 - v) := by simp [fee_inverse]
    have hx : net / (1 - v) * (1 - v) = net := div_mul_cancel₀ net h1vne
    have hkey : round2 (net / (1 - v)) * (1 - v) - net
        = (round2 (net / (1 - v)) - net / (1 - v)) * (1 - v) := by
      rw [sub_mul, hx]
    have hb := round2_close (net / (1 - v))
    rw [hinv, hkey, abs_mul, abs_of_pos h1v]
    calc |round2 (net / (1 - v)) - net / (1 - v)| * (1 - v)
        ≤ (1 / 200) * 1 :=
          mul_le_mul hb (by linarith) (le_of_lt h1v) (by norm_num)
      _ ≤ 1 / 100 := by norm_num
  · refine ⟨round2 ((net + fx) / (1 - v)), apply_fee_ppf net v fx hne, ?_⟩
    have hinv : fee_inverse ⟨"percent_plus_fixed", v, fx⟩
          (round2 ((net + fx) / (1 - v)))
        = round2 ((net + fx) / (1 - v)) * (1 - v) - fx := by
      simp [fee_inverse]
    have hx : (net + fx) / (1 - v) * (1 - v) = net + fx :=
      div_mul_cancel₀ _ h1vne
    have hkey : round2 ((net + fx) / (1 - v)) * (1 - v) - fx - net
        = (round2 ((net + fx) / (1 - v)) - (net + fx) / (1 - v)) * (1 - v) := by
      rw [sub_mul, hx]; ring
    have hb := round2_close ((net + fx) / (1 - v))
    rw [hinv, hkey, abs_mul, abs_of_pos h1v]
    calc |round2 ((net + fx) / (1 - v)) - (net + fx) / (1 - v)| * (1 - v)
        ≤ (1 / 200) * 1 :=
          mul_le_mul hb (by linarith) (le_of_lt h1v) (by norm_num)
      _ ≤ 1 / 100 := by norm_num

/-- C1 witness: the round-trip theorem instantiated at the 10 percent
rule and net 100. -/
theorem claim1_round_trip_witness :
    (("percent" = "percent" ∨ "percent" = "percent_plus_fixed")
      ∧ (0:ℚ) ≤ 1 / 10 ∧ (1:ℚ) / 10 < 1 ∧ (0:ℚ) ≤ 0 ∧ (0:ℚ) < 100)
    ∧ ∃ p, apply_fee 100 ⟨"percent", 1 / 10, 0⟩ = some p ∧
        |fee_inverse ⟨"percent", 1 / 10, 0⟩ p - 100| ≤ 1 / 100 :=
  ⟨⟨Or.inl rfl, by norm_num, by norm_num, le_refl 0, by norm_num⟩,
   claim1_round_trip "percent" (1 / 10) 0 100 (Or.inl rfl) (by norm_num)
     (by norm_num) (le_refl 0) (by norm_num)⟩

/-- C5 counterexample: the claim prescribes half-up rounding, but the
source rounds with Python `round` (ties to even). At net `0.5025` under
`Percent(0.5)` the exact quotient is `1.005`: half-up yields `1.01`,
while `apply_fee` returns `1.00`. -/
theorem claim5_counterexample :
    apply_fee (5025 / 10000) ⟨"percent", 1 / 2, 0⟩ = some 1 ∧
    spec_forward_halfup ⟨"percent", 1 / 2, 0⟩ (5025 / 10000) = 101 / 100 ∧
    (1 : ℚ) ≠ 101 / 100 := by
  refine ⟨?_, ?_, by norm_num⟩
  · rw [apply_fee_percent _ _ _ (by norm_num)]
    norm_num [round2, rheInt]
  · simp [spec_forward_halfup, round2_half_up, round_eq]
    norm_num

/-- C5 amended: the forward conversion equals the spec formula rounded to
2 decimals with round-half-to-even (Python `round`) rather than half-up;
the rounded value is within half a cent of the exact formula, and the
scenario `107.00` under `Percent(0.10)` yields `118.89`. -/
theorem claim5_amended (net v fx : ℚ) (hv : v ≠ 1) :
    (∃ p, apply_fee net ⟨"percent", v, fx⟩ = some p ∧
        p = round2 (net / (1 - v)) ∧ |p - net / (1 - v)| ≤ 1 / 200) ∧
    (∃ p, apply_fee net ⟨"percent_plus_fixed", v, fx⟩ = some p ∧
        p = round2 ((net + fx) / (1 - v)) ∧
        |p - (net + fx) / (1 - v)| ≤ 1 / 200) ∧
    apply_fee 107 ⟨"percent", 1 / 10, 0⟩ = some (11889 / 100) := by
  refine ⟨⟨_, apply_fee_percent net v fx hv, rfl, round2_close _⟩,
    ⟨_, apply_fee_ppf net v fx hv, rfl, round2_close _⟩, ?_⟩
  rw [apply_fee_percent _ _ _ (by norm_num)]
  norm_num [round2, rheInt]

/-- C5 amended witness: the amended statement instantiated at the
10 percent rule. -/
theorem claim5_amended_witness :
    ((1:ℚ) / 10 ≠ 1) ∧
    ∃ p, apply_fee 107 ⟨"percent", 1 / 10, 0⟩ = some p ∧
      p = round2 (107 / (1 - 1 / 10)) ∧ |p - 107 / (1 - 1 / 10)| ≤ 1 / 200 :=
  ⟨by norm_num, (claim5_amended 107 (1 / 10) 0 (by norm_num)).1⟩

/-- C6: `is_profitable` computes the seller net via the inverse fee
conversion and returns true exactly when it is at least the base
reference amount; breakeven (equality) counts as profitable. -/
theorem claim6_profitability (final_price base_price : ℚ) (c : FeeCfg) :
    (is_profitable final_price base_price c = true ↔
      fee_inverse (cfgRule c) final_price ≥ base_price) ∧
    (fee_inverse (cfgRule c) final_price = base_price →
      is_profitable final_price base_price c = true) := by
  have h : is_profitable final_price base_price c = true ↔
      fee_inverse (cfgRule c) final_price ≥ base_price := by
    simp [is_profitable, fee_inverse]
  exact ⟨h, fun he => h.mpr (ge_of_eq he)⟩

/-- C6 witness: the listed price 118.89 on the 10 percent platform with
base 100 is profitable. -/
theorem claim6_profitability_witness :
    is_profitable (11889 / 100) 100 ⟨"percent", 1 / 10, none⟩ = true :=
  (claim6_profitability (11889 / 100) 100 ⟨"percent", 1 / 10, none⟩).1.mpr
    (by simp [fee_inverse, cfgRule]; norm_num)

/-- C7 counterexample: constructing a fee rule with rate 2 does not fail
with any `InvalidFeeRule` error — the dataclass accepts it — and
`apply_fee` even prices with it, producing a negative list price. -/
theorem claim7_counterexample :
    mk_fee_rule "percent" 2 0 ≠ none ∧
    mk_fee_rule "percent" 2 0 = some ⟨"percent", 2, 0⟩ ∧
    apply_fee 100 ⟨"percent", 2, 0⟩ = some (-100) := by
  refine ⟨by simp [mk_fee_rule], rfl, ?_⟩
  rw [apply_fee_percent _ _ _ (by norm_num)]
  norm_num [round2, rheInt]

/-- C7 amended: `FeeRule` construction performs no validation and always
succeeds for any rate; a rate of exactly 1 makes `apply_fee` fail with a
division-by-zero error, and a rate above 1 silently yields a negative
list price — there is no `InvalidFeeRule` error path. -/
theorem claim7_amended :
    (∀ (t : String) (v fx : ℚ), mk_fee_rule t v fx = some ⟨t, v, fx⟩) ∧
    apply_fee 100 ⟨"percent", 1, 0⟩ = none ∧
    apply_fee 100 ⟨"percent_plus_fixed", 1, 5⟩ = none ∧
    apply_fee 100 ⟨"percent", 2, 0⟩ = some (-100) := by
  refine ⟨fun t v fx => rfl, by simp [apply_fee], by simp [apply_fee], ?_⟩
  rw [apply_fee_percent _ _ _ (by norm_num)]
  norm_num [round2, rheInt]

/-- C10: `map_condition` is total over arbitrary strings — it always
returns an ordinary `(ok, text)` pair. A platform absent from the table
yields the failure pair with the unsupported-condition message; a success
result occurs only when the table actually holds a label for the
platform and grade, so no default label is ever invented. -/
theorem claim10_map_condition_total (p c : String) :
    (slookup p COND_MAP = none →
      map_condition p c = (false, unsupported_msg p c)) ∧
    ((map_condition p c).1 = true →
      ∃ m l, slookup p COND_MAP = some m ∧ slookup c m = some l ∧
        map_condition p c = (true, l)) := by
  constructor
  · intro h
    simp [map_condition, h]
  · intro h
    rcases hm : slookup p COND_MAP with _ | m
    · rw [map_condition, hm] at h
      simp at h
    · rw [map_condition, hm] at h ⊢
      by_cases he : m.isEmpty
      · simp [he] at h
      · rcases hl : slookup c m with _ | l
        · simp [he, hl] at h
        · exact ⟨m, l, rfl, hl, by simp [he, hl]⟩

/-- C10 witness: platform `"W"` is absent from `COND_MAP`, and
`map_condition` returns the ordinary failure pair for it. -/
theorem claim10_map_condition_total_witness :
    map_condition "W" "Good" = (false, unsupported_msg "W" "Good") :=
  (claim10_map_condition_total "W" "Good").1 (by decide)

/-- C4 counterexample: an in-stock, non-discontinued phone carrying the
reserved tag `reserved_b2b` is not blocked by the stock gate — the gate
takes no tags argument at all, so no `Blocked("reserved")` outcome
exists, contrary to the claim's third check. -/
theorem claim4_counterexample :
    (Phone.mk "Good" 100 5 (some "reserved_b2b") none none none false).tags
      = some "reserved_b2b" ∧
    should_block_for_stock
      (Phone.mk "Good" 100 5 (some "reserved_b2b") none none none false).stock_qty
      (Phone.mk "Good" 100 5 (some "reserved_b2b") none none none false).discontinued
      = (false, "") := by
  exact ⟨rfl, by decide⟩

/-- C4 amended: the stock gate checks, in order with the first match
winning, only `discontinued` (reason `"Product discontinued"`) and then
`stockQty <= 0` (reason `"Out of stock"`); otherwise it passes. No
reserved-tags check exists in the gate. -/
theorem claim4_amended (s : ℤ) (d : Bool) :
    (d = true → should_block_for_stock s d = (true, "Product discontinued")) ∧
    (d = false → s ≤ 0 → should_block_for_stock s d = (true, "Out of stock")) ∧
    (d = false → 0 < s → should_block_for_stock s d = (false, "")) := by
  refine ⟨fun hd => ?_, fun hd hs => ?_, fun hd hs => ?_⟩ <;> subst hd
  · simp [should_block_for_stock]
  · simp [should_block_for_stock, hs]
  · simp [should_block_for_stock, not_le.mpr hs]

/-- C4 amended witness: the three gate outcomes at concrete inputs,
including the gate-ordering case (discontinued wins even when a quantity
would also block). -/
theorem claim4_amended_witness :
    should_block_for_stock 7 true = (true, "Product discontinued") ∧
    should_block_for_stock (-3) false = (true, "Out of stock") ∧
    should_block_for_stock 5 false = (false, "") :=
  ⟨(claim4_amended 7 true).1 rfl,
   (claim4_amended (-3) false).2.1 rfl (by norm_num),
   (claim4_amended 5 false).2.2 rfl (by norm_num)⟩

theorem gate_cases (s : ℤ) (d : Bool) :
    should_block_for_stock s d = (true, "Product discontinued") ∨
    should_block_for_stock s d = (true, "Out of stock") ∨
    should_block_for_stock s d = (false, "") := by
  unfold should_block_for_stock
  split_ifs <;> simp

theorem map_cond_shape (p c : String) :
    (∃ l, map_condition p c = (true, l)) ∨
    map_condition p c = (false, unsupported_msg p c) := by
  unfold map_condition
  split
  · exact Or.inr rfl
  · split_ifs
    · exact Or.inr rfl
    · split
      · exact Or.inr rfl
      · exact Or.inl ⟨_, rfl⟩

theorem map_cond_false_msg (p c : String)
    (h : (map_condition p c).1 = false) :
    (map_condition p c).2 = unsupported_msg p c := by
  rcases map_cond_shape p c with ⟨l, hl⟩ | hmsg
  · rw [hl] at h
    simp at h
  · rw [hmsg]

theorem unsupported_msg_ne_unprofitable (p c : String) :
    unsupported_msg p c ≠ "Unprofitable after platform fees" := by
  intro h
  have h2 : ("Unsupported condition ".data ++ (c.data ++ (" for ".data ++ p.data)))
      = ("Unprofitable after platform fees" : String).data := by
    have hd := congrArg String.data h
    simp only [unsupported_msg, String.data_append, List.append_assoc] at hd
    exact hd
  have h3 : ("Unsupported condition ".data
        ++ (c.data ++ (" for ".data ++ p.data)))[2]?
      = ("Unprofitable after platform fees" : String).data[2]? := by
    rw [h2]
  rw [List.getElem?_append_left (by decide)] at h3
  exact absurd h3 (by decide)

/-- C2: the listing decision evaluates the checks in the fixed order
gate, condition mapping, price presence, profitability, stopping at the
first failure: a blocked gate decides the outcome regardless of the
other checks, a failed condition mapping (after a passing gate) decides
the outcome regardless of price and profitability, and the
unprofitability reason is reported only when the gate, the condition
mapping and the price-presence check have all passed. -/
theorem claim2_order (fees : List (String × FeeCfg)) (platform : String)
    (phone : Phone)
    (hp : pyUpper platform = "X" ∨ pyUpper platform = "Y" ∨
      pyUpper platform = "Z") :
    ((should_block_for_stock phone.stock_qty phone.discontinued).1 = true →
      list_phone fees platform phone =
        .failed (should_block_for_stock phone.stock_qty phone.discontinued).2) ∧
    ((should_block_for_stock phone.stock_qty phone.discontinued).1 = false →
      (map_condition (pyUpper platform) phone.condition).1 = false →
      list_phone fees platform phone =
        .failed (map_condition (pyUpper platform) phone.condition).2) ∧
    (list_phone fees platform phone = .failed "Unprofitable after platform fees" →
      (should_block_for_stock phone.stock_qty phone.discontinued).1 = false ∧
      (map_condition (pyUpper platform) phone.condition).1 = true ∧
      ∃ fp, priceFor phone (pyUpper platform) = some fp ∧ fp ≠ 0) := by
  refine ⟨fun hg => ?_, fun hg hc => ?_, fun hres => ?_⟩
  · simp [list_phone, hp, hg]
  · simp [list_phone, hp, hg, hc]
  · by_cases hg : (should_block_for_stock phone.stock_qty phone.discontinued).1
    · exfalso
      rw [show list_phone fees platform phone =
          .failed (should_block_for_stock phone.stock_qty phone.discontinued).2
          from by simp [list_phone, hp, hg]] at hres
      have h2 : (should_block_for_stock phone.stock_qty phone.discontinued).2
          = "Unprofitable after platform fees" := by
        simpa using hres
      rcases gate_cases phone.stock_qty phone.discontinued with h | h | h <;>
        rw [h] at h2 <;> simp at h2
    · have hgf : (should_block_for_stock phone.stock_qty phone.discontinued).1
          = false := by simpa using hg
      by_cases hc : (map_condition (pyUpper platform) phone.condition).1
      · rcases hfp : priceFor phone (pyUpper platform) with _ | fp
        · exfalso
          rw [show list_phone fees platform phone =
              .failed "Missing platform price"
              from by simp [list_phone, hp, hgf, hc, hfp]] at hres
          simp at hres
        · by_cases h0 : fp = 0
          · exfalso
            rw [show list_phone fees platform phone =
                .failed "Missing platform price"
                from by simp [list_phone, hp, hgf, hc, hfp, h0]] at hres
            simp at hres
          · exact ⟨hgf, hc, ⟨fp, rfl, h0⟩⟩
      · exfalso
        have hcf : (map_condition (pyUpper platform) phone.condition).1
            = false := by simpa using hc
        rw [show list_phone fees platform phone =
            .failed (map_condition (pyUpper platform) phone.condition).2
            from by simp [list_phone, hp, hgf, hcf]] at hres
        have h2 : (map_condition (pyUpper platform) phone.condition).2
            = "Unprofitable after platform fees" := by
          simpa using hres
        rw [map_cond_false_msg _ _ hcf] at h2
        exact unsupported_msg_ne_unprofitable _ _ h2

/-- C2 witness: a discontinued phone on platform X is rejected with the
gate reason, whatever the fee config. -/
theorem claim2_order_witness :
    list_phone [] "X" ⟨"Good", 100, 5, none, none, none, none, true⟩
      = .failed "Product discontinued" := by
  have h := (claim2_order [] "X" ⟨"Good", 100, 5, none, none, none, none, true⟩
    (Or.inl (by decide))).1 (by decide)
  simpa [should_block_for_stock] using h

theorem optMap_mem {α β : Type} (f : α → Option β) :
    ∀ {l : List α} {out : List β}, optMap f l = some out →
      ∀ {x : α}, x ∈ l → ∃ y, f x = some y ∧ y ∈ out := by
  intro l
  induction l with
  | nil =>
    intro out h x hx
    cases hx
  | cons a t ih =>
    intro out h x hx
    cases hfa : f a with
    | none =>
      simp only [optMap, hfa] at h
      exact Option.noConfusion h
    | some b =>
      cases hrest : optMap f t with
      | none =>
        simp only [optMap, hfa, hrest] at h
        exact Option.noConfusion h
      | some bs =>
        simp only [optMap, hfa, hrest] at h
        injection h with h2
        subst h2
        cases hx with
        | head => exact ⟨b, hfa, List.mem_cons_self b bs⟩
        | tail _ hxt =>
          obtain ⟨y, hy1, hy2⟩ := ih hrest hxt
          exact ⟨y, hy1, List.mem_cons_of_mem b hy2⟩

/-- C3: for every marketplace present in the fee config, a manual
override strictly greater than 0 wins — the recommended price is the
override rounded to 2 decimals, regardless of base net and of that
marketplace's fee rule — and otherwise (override absent or non-positive)
the price is the forward conversion of
`targetRevenue = baseNet * (1 + minMargin)` under the marketplace's
rule. -/
theorem claim3_override_precedence (base margin : ℚ)
    (cfg : List (String × FeeCfg)) (ovr : List (String × ℚ))
    (M : String) (c : FeeCfg) (out : List (String × ℚ))
    (hmem : (M, c) ∈ cfg)
    (hout : recommend_prices base cfg margin ovr = some out) :
    (∀ v, slookup M ovr = some v → 0 < v → (M, round2 v) ∈ out) ∧
    (∀ v, slookup M ovr = some v → ¬ 0 < v →
      ∃ q, apply_fee (base * (1 + margin)) (cfgRule c) = some q ∧
        (M, q) ∈ out) ∧
    (slookup M ovr = none →
      ∃ q, apply_fee (base * (1 + margin)) (cfgRule c) = some q ∧
        (M, q) ∈ out) := by
  simp only [recommend_prices] at hout
  obtain ⟨y, hy, hyo⟩ := optMap_mem _ hout hmem
  simp only at hy
  refine ⟨?_, ?_, ?_⟩
  · intro v hv hvpos
    rw [hv] at hy
    simp only [if_pos hvpos] at hy
    injection hy with h2
    rw [← h2] at hyo
    exact hyo
  · intro v hv hvneg
    rw [hv] at hy
    simp only [if_neg hvneg] at hy
    cases hq : apply_fee (base * (1 + margin)) (cfgRule c) with
    | none => rw [hq] at hy; simp at hy
    | some q =>
      rw [hq] at hy
      simp at hy
      exact ⟨q, rfl, hy ▸ hyo⟩
  · intro hv
    rw [hv] at hy
    cases hq : apply_fee (base * (1 + margin)) (cfgRule c) with
    | none => rw [hq] at hy; simp at hy
    | some q =>
      rw [hq] at hy
      simp at hy
      exact ⟨q, rfl, hy ▸ hyo⟩

/-- C3 witness: a positive override of 199.99 for marketplace X is
returned verbatim. -/
theorem claim3_override_precedence_witness :
    ∃ out, recommend_prices 100 [("X", FeeCfg.mk "percent" (1 / 10) none)]
        (7 / 100) [("X", (19999 : ℚ) / 100)] = some out ∧
      ("X", (19999 : ℚ) / 100) ∈ out := by
  have hr2 : round2 ((19999 : ℚ) / 100) = (19999 : ℚ) / 100 := by
    norm_num [round2, rheInt]
  have hout : recommend_prices 100 [("X", FeeCfg.mk "percent" (1 / 10) none)]
      (7 / 100) [("X", (19999 : ℚ) / 100)]
      = some [("X", (19999 : ℚ) / 100)] := by
    simp [recommend_prices, optMap, slookup]
    norm_num [round2, rheInt]
  have h := (claim3_override_precedence 100 (7 / 100)
      [("X", FeeCfg.mk "percent" (1 / 10) none)] [("X", (19999 : ℚ) / 100)]
      "X" (FeeCfg.mk "percent" (1 / 10) none) _ (by simp) hout).1
      ((19999 : ℚ) / 100) (by simp [slookup]) (by norm_num)
  rw [hr2] at h
  exact ⟨_, hout, h⟩

/-- C8 (code bug): the bulk recompute endpoint passes an empty override
dict to `recommend_prices` and overwrites every stored platform price,
so a manually overridden price of 199.99 on X (base net 100, stock
config) is replaced by the fee-computed 118.89 instead of being
preserved, contradicting the endpoint's stated behavior of keeping
manual overrides. -/
theorem claim8_bulk_overwrite :
    auto_update_prices PLATFORM_FEES PRICE_MIN_MARGIN
        [⟨"Good", 100, 5, none, some (19999 / 100), none, none, false⟩]
      = some [⟨"Good", 100, 5, none, some (11889 / 100), some (11848 / 100),
          some (12159 / 100), false⟩] ∧
    some ((19999 : ℚ) / 100) ≠ some ((11889 : ℚ) / 100) := by
  constructor
  · have hX : apply_fee 107 ⟨"percent", 1 / 10, 0⟩ = some (11889 / 100) := by
      rw [apply_fee_percent _ _ _ (by norm_num)]
      norm_num [round2, rheInt]
    have hY : apply_fee 107 ⟨"percent_plus_fixed", 8 / 100, 2⟩
        = some (11848 / 100) := by
      rw [apply_fee_ppf _ _ _ (by norm_num)]
      norm_num [round2, rheInt]
    have hZ : apply_fee 107 ⟨"percent", 12 / 100, 0⟩ = some (12159 / 100) := by
      rw [apply_fee_percent _ _ _ (by norm_num)]
      norm_num [round2, rheInt]
    have htv : (100 : ℚ) * (1 + 7 / 100) = 107 := by norm_num
    simp only [auto_update_prices, optMap, recommend_prices, PLATFORM_FEES,
      PRICE_MIN_MARGIN, slookup, cfgRule, Option.getD_none, Option.getD_some,
      String.reduceEq, reduceIte, htv, hX, hY, hZ, Option.map_some']
  · simp only [ne_eq, Option.some.injEq]
    norm_num

theorem parse_ok_fields (i : ℕ) (row : List (String × String))
    (out : ParsedRow) (h : parse_phone_row i row = .ok out) :
    floatField (slookup "base_price" row) = .ok out.base_price ∧
    intField (slookup "stock_qty" row) = .ok out.stock_qty := by
  by_cases hh : headerOk row
  · rw [parse_phone_row, if_pos hh] at h
    cases hbf : floatField (slookup "base_price" row) with
    | error e =>
      rw [hbf] at h
      simp at h
    | ok bp =>
      rw [hbf] at h
      cases hif : intField (slookup "stock_qty" row) with
      | error e =>
        rw [hif] at h
        simp at h
      | ok sq =>
        rw [hif] at h
        split_ifs at h <;> cases h <;> exact ⟨rfl, rfl⟩
  · rw [parse_phone_row, if_neg hh] at h
    simp at h

/-- C9 counterexample: a row whose `base_price` cell is the empty string
— a value that does not parse as a number — is not rejected with any
`RowError("invalid_number", ...)`: the normalizer silently coerces it to
0 and yields the row. -/
theorem claim9_counterexample :
    parse_phone_row 2
        [("brand", "A"), ("model", "B"), ("condition", "Good"),
         ("base_price", ""), ("stock_qty", "3")]
      = .ok ⟨"A", "B", none, none, "Good", .finite 0, 3, none, false⟩ := by
  decide

/-- C9 amended: a numeric field (`base_price` or `stock_qty`) whose value
is non-empty and unparsable makes the whole parse raise a bare
`ValueError` carrying only the Python message — no structured
`RowError("invalid_number", field, rowIndex)` exists — while an empty or
missing numeric value is silently coerced to 0. The `stock_qty` failure
surfaces when `base_price` converted, matching the source's evaluation
order. -/
theorem claim9_amended (i : ℕ) (row : List (String × String))
    (hh : headerOk row = true) :
    (∀ s, slookup "base_price" row = some s → s ≠ "" → pyFloat s = none →
      parse_phone_row i row
        = .error ("could not convert string to float: " ++ s)) ∧
    (∀ s, slookup "stock_qty" row = some s → s ≠ "" → pyInt s = none →
      (∃ bp, floatField (slookup "base_price" row) = .ok bp) →
      parse_phone_row i row
        = .error ("invalid literal for int with base 10: " ++ s)) ∧
    (∀ out, parse_phone_row i row = .ok out →
      ((slookup "base_price" row).getD "" = "" → out.base_price = .finite 0) ∧
      ((slookup "stock_qty" row).getD "" = "" → out.stock_qty = 0)) := by
  refine ⟨?_, ?_, ?_⟩
  · intro s hs hne hpf
    simp only [parse_phone_row, hh, if_true, hs, floatField]
    rw [if_neg hne, hpf]
  · intro s hs hne hpi hbp
    obtain ⟨bp, hbp⟩ := hbp
    simp only [parse_phone_row, hh, if_true, hbp, hs, intField]
    rw [if_neg hne, hpi]
  · intro out hout
    obtain ⟨hbf, hif⟩ := parse_ok_fields i row out hout
    constructor
    · intro hbe
      cases hb : slookup "base_price" row with
      | none =>
        rw [hb] at hbf
        simp [floatField] at hbf
        exact hbf.symm
      | some s =>
        rw [hb] at hbf
        have hse : s = "" := by simpa [hb] using hbe
        rw [hse] at hbf
        simp [floatField] at hbf
        exact hbf.symm
    · intro hbe
      cases hb : slookup "stock_qty" row with
      | none =>
        rw [hb] at hif
        simp [intField] at hif
        exact hif.symm
      | some s =>
        rw [hb] at hif
        have hse : s = "" := by simpa [hb] using hbe
        rw [hse] at hif
        simp [intField] at hif
        exact hif.symm

/-- C9 amended witness: a non-empty unparsable `base_price` cell makes
the parse fail with the bare float conversion error, and a non-empty
unparsable `stock_qty` cell (with a convertible `base_price`) with the
bare int conversion error. -/
theorem claim9_amended_witness :
    parse_phone_row 2
        [("brand", "A"), ("model", "B"), ("condition", "Good"),
         ("base_price", "abc"), ("stock_qty", "3")]
      = .error ("could not convert string to float: " ++ "abc") ∧
    parse_phone_row 3
        [("brand", "A"), ("model", "B"), ("condition", "Good"),
         ("base_price", "45"), ("stock_qty", "x7")]
      = .error ("invalid literal for int with base 10: " ++ "x7") :=
  ⟨(claim9_amended 2
      [("brand", "A"), ("model", "B"), ("condition", "Good"),
       ("base_price", "abc"), ("stock_qty", "3")] (by decide)).1
      "abc" (by decide) (by decide) (by decide),
   (claim9_amended 3
      [("brand", "A"), ("model", "B"), ("condition", "Good"),
       ("base_price", "45"), ("stock_qty", "x7")] (by decide)).2.1
      "x7" (by decide) (by decide) (by decide)
      ⟨PyFloat.finite 45, by decide⟩⟩

end Refurb
